import Mathlib

/-!
Verification development for the whale-movement pipeline
(`src/fetch_whales.py` of the `whale_movement` repository).

The embedding models the price-lookup function `get_token_price_usd`, the
per-wallet fetcher `fetch_transactions_for_wallet`, and the aggregator
`fetch_whale_transactions` as pure Lean functions.  Machine floats of the
Python source are modelled by rationals (`ℚ`); every arithmetic operation
appearing in the source (`/ 1e9`, `*`, `>=`, `== 0.0`) is exact on the
values exercised here.  JSON-shape failures that the Python source catches
with per-item `except` blocks are modelled by `Except Unit` fields on the
raw records; HTTP traffic is modelled by an explicit response oracle passed
to the aggregator.
-/

namespace WhaleMovement

-- Core marks rational arithmetic `@[irreducible]`, which blocks `decide`'s
-- evaluation of concrete pipeline runs; restore the definitional behaviour
-- for this file (the kernel itself ignores reducibility annotations).
attribute [local semireducible] Rat.mul Rat.inv Rat.add Rat.sub

/-- One row of the price DataFrame built by `fetch_token_price_history`
(`src/fetch_price.py`): a `"YYYY-MM-DD"` date string and a price.
`fetch_price` produces one row per calendar day (`groupby("date").mean()`),
dates ascending, so a well-formed index has pairwise-distinct dates. -/
structure PriceRow where
  date : String
  price : ℚ
deriving DecidableEq, Repr

/-- The price index: the `['date', 'price']` DataFrame as a list of rows. -/
abbrev PriceDf := List PriceRow

/-- Lexicographic strict order on character-code lists; used to phrase
calendar-date comparisons of `"YYYY-MM-DD"` strings (on that fixed-width
format, lexicographic order is chronological order). -/
def codesLt : List Nat → List Nat → Bool
  | [], [] => false
  | [], _ :: _ => true
  | _ :: _, [] => false
  | a :: as, b :: bs => if a < b then true else if b < a then false else codesLt as bs

/-- Strict "earlier calendar date" on `"YYYY-MM-DD"` strings. -/
def dateLt (a b : String) : Bool :=
  codesLt (a.data.map Char.toNat) (b.data.map Char.toNat)

/-- `get_token_price_usd(date_str, price_df)` from `src/fetch_whales.py`
lines 11-35: first an exact-date match (`price_df[price_df["date"] == date_str]`,
returning `iloc[0]` of the selection); otherwise, if the frame is non-empty,
the last row's price (`price_df["price"].iloc[-1]`); otherwise the `0.0`
sentinel. -/
def get_token_price_usd (date_str : String) (price_df : PriceDf) : ℚ :=
  match price_df.filter (fun r => r.date == date_str) with
  | r :: _ => r.price
  | [] =>
    match price_df.getLast? with
    | some r => r.price
    | none => 0

/-- Modelled from the spec (§8, claim C1): the most recent stored price at a
date `≤ D` — the price of the last row whose date is at most `date_str`,
the index being date-ascending.  This is the spec's described fallback, kept
separate from the source-translated `get_token_price_usd` so the two can be
compared. -/
def specMostRecentPriceLE (date_str : String) (price_df : PriceDf) : Option ℚ :=
  ((price_df.filter (fun r => dateLt r.date date_str || r.date == date_str)).getLast?).map
    (fun r => r.price)

/-! ### Timestamp → `"YYYY-MM-DD"` conversion

`fetch_whale_transactions` computes
`datetime.utcfromtimestamp(tx["timestamp"]).strftime("%Y-%m-%d")`.
We model it by the standard civil-from-days conversion on the UTC day
number (Gregorian calendar, the same calendar `datetime` uses). -/

/-- Zero-padded two-digit decimal rendering (for months and days). -/
def pad2 (n : ℕ) : String :=
  if n < 10 then "0" ++ toString n else toString n

/-- Zero-padded four-digit decimal rendering (for years; `strftime("%Y")`
pads the year to four digits). -/
def pad4 (n : ℕ) : String :=
  if n < 10 then "000" ++ toString n
  else if n < 100 then "00" ++ toString n
  else if n < 1000 then "0" ++ toString n
  else toString n

/-- Gregorian (year, month, day) of a UTC day number (days since
1970-01-01), by the standard civil-from-days computation. -/
def civilFromDays (z : Int) : Int × ℕ × ℕ :=
  let z := z + 719468
  let era : Int := (if 0 ≤ z then z else z - 146096) / 146097
  let doe : ℕ := (z - era * 146097).toNat
  let yoe : ℕ := (doe - doe / 1460 + doe / 36524 - doe / 146096) / 365
  let y : Int := (yoe : Int) + era * 400
  let doy : ℕ := doe - (365 * yoe + yoe / 4 - yoe / 100)
  let mp : ℕ := (5 * doy + 2) / 153
  let d : ℕ := doy - (153 * mp + 2) / 5 + 1
  let m : ℕ := if mp < 10 then mp + 3 else mp - 9
  (if m ≤ 2 then y + 1 else y, m, d)

/-- `datetime.utcfromtimestamp(ts).strftime("%Y-%m-%d")` for an integer
unix-seconds timestamp in `datetime`'s supported range. -/
def utcDateString (ts : Int) : String :=
  let days : Int := Int.fdiv ts 86400
  let c := civilFromDays days
  pad4 c.1.toNat ++ "-" ++ pad2 c.2.1 ++ "-" ++ pad2 c.2.2

/-! ### Raw records and the valued-transfer row

`fetch_transactions_for_wallet` returns parsed JSON.  A field that the
Python code feeds to `float(...)` is modelled as the parse result
`Except Unit ℚ`: `.error ()` stands for a value `float()` raises on, which
the source catches in the surrounding per-transfer `except` block.  A
transaction-level `tx["timestamp"]` access that raises (missing key, or a
value `utcfromtimestamp` rejects) is likewise `.error ()`, caught by the
per-transaction `except` block. -/

/-- Decidable equality for modelled parse results. -/
instance {ε α : Type} [DecidableEq ε] [DecidableEq α] : DecidableEq (Except ε α) :=
  fun x y =>
    match x, y with
    | .error a, .error b =>
      if h : a = b then .isTrue (by rw [h])
      else .isFalse (fun hh => h (Except.error.inj hh))
    | .ok a, .ok b =>
      if h : a = b then .isTrue (by rw [h])
      else .isFalse (fun hh => h (Except.ok.inj hh))
    | .error _, .ok _ => .isFalse (fun hh => by cases hh)
    | .ok _, .error _ => .isFalse (fun hh => by cases hh)

/-- One entry of `tx["nativeTransfers"]`. -/
structure RawNativeTransfer where
  amount : Except Unit ℚ
  fromUserAccount : Option String
  toUserAccount : Option String
deriving DecidableEq, Repr

/-- One entry of `tx["tokenTransfers"]`.  `mint` is `transfer.get("mint", "")`;
a non-string `mint` value in the JSON would raise inside the transfer's
`try` block (at the `f"TOKEN-{mint[:8]}..."` slice) and be skipped, the same
outcome as an unparseable `tokenAmount`, so the model carries the string
case. -/
structure RawTokenTransfer where
  mint : String
  tokenAmount : Except Unit ℚ
  fromUserAccount : Option String
  toUserAccount : Option String
deriving DecidableEq, Repr

/-- One element of the JSON array returned for a wallet. -/
structure RawTransaction where
  timestamp : Except Unit Int
  signature : Option String
  nativeTransfers : List RawNativeTransfer
  tokenTransfers : List RawTokenTransfer
deriving DecidableEq, Repr

/-- The transfer kind tag written into the `"type"` column. -/
inductive TransferType where
  | NATIVE_SOL
  | TOKEN
deriving DecidableEq, Repr

/-- One row appended to `all_whale_txs` (the dict literals at lines 139-150
and 186-198 of `src/fetch_whales.py`).  `fromAcct`/`toAcct` render the
`"from"`/`"to"` keys (`from` is reserved in Lean); `timestamp` carries the
unix seconds underlying the `datetime` value; `token_symbol` is `none` for
native rows, whose dict has no such key. -/
structure WhaleTx where
  wallet : String
  type : TransferType
  amount : ℚ
  usd_value : ℚ
  fromAcct : Option String
  toAcct : Option String
  timestamp : Int
  date : String
  signature : Option String
  token_address : String
  token_symbol : Option String
deriving DecidableEq, Repr

/-- Placeholder row used only to totalize list indexing in the sort model;
never reachable on in-range indices. -/
def dummyTx : WhaleTx :=
  { wallet := "", type := .NATIVE_SOL, amount := 0, usd_value := 0,
    fromAcct := none, toAcct := none, timestamp := 0, date := "",
    signature := none, token_address := "", token_symbol := none }

/-- The native / wrapped-SOL mint literal
`"So11111111111111111111111111111111111111112"`. -/
def WSOL_MINT : String := "So11111111111111111111111111111111111111112"

/-- The USDC mint literal. -/
def USDC_MINT : String := "EPjFWdd5AufqSSqeM2qN1xzybapC8G4wEGGkZwyTDt1v"

/-- The USDT mint literal. -/
def USDT_MINT : String := "Es9vMFrzaCERmJfrF4H2FYD4KCoNkY11McCe8BenwNYB"

/-! ### Per-transfer, per-transaction and per-address processing -/

/-- Body of the `for transfer in native_transfers` loop (lines 128-153):
parse `float(transfer.get("amount", 0))` (exception → skip), convert
lamports to SOL by `/ 1e9`, price at `price_usd`, and append the row when
`usd_value >= whale_threshold`.  Returns the appended rows. -/
def processNativeTransfer (addr : String) (whale_threshold price_usd : ℚ)
    (ts : Int) (date_str : String) (signature : Option String)
    (t : RawNativeTransfer) : List WhaleTx :=
  match t.amount with
  | .error _ => []
  | .ok amount_lamports =>
    let amount_sol := amount_lamports / 1000000000
    let usd_value := amount_sol * price_usd
    if usd_value ≥ whale_threshold then
      [{ wallet := addr, type := .NATIVE_SOL, amount := amount_sol,
         usd_value := usd_value, fromAcct := t.fromUserAccount,
         toAcct := t.toUserAccount, timestamp := ts, date := date_str,
         signature := signature, token_address := WSOL_MINT,
         token_symbol := none }]
    else []

/-- Body of the `for transfer in token_transfers` loop (lines 160-201):
parse `float(transfer.get("tokenAmount", 0))` (exception → skip), resolve
`(token_symbol, token_price_usd)` by mint — wrapped SOL uses the
transaction's `price_usd`, USDC/USDT use 1.0, anything else uses the
`TOKEN-<mint[:8]>...` symbol and the 1.0 fallback — then append the row
when `usd_value >= whale_threshold`. -/
def processTokenTransfer (addr : String) (whale_threshold price_usd : ℚ)
    (ts : Int) (date_str : String) (signature : Option String)
    (t : RawTokenTransfer) : List WhaleTx :=
  match t.tokenAmount with
  | .error _ => []
  | .ok amount =>
    let sp : String × ℚ :=
      if t.mint = WSOL_MINT then ("wSOL", price_usd)
      else if t.mint = USDC_MINT then ("USDC", 1)
      else if t.mint = USDT_MINT then ("USDT", 1)
      else ("TOKEN-" ++ t.mint.take 8 ++ "...", 1)
    let usd_value := amount * sp.2
    if usd_value ≥ whale_threshold then
      [{ wallet := addr, type := .TOKEN, amount := amount,
         usd_value := usd_value, fromAcct := t.fromUserAccount,
         toAcct := t.toUserAccount, timestamp := ts, date := date_str,
         signature := signature, token_address := t.mint,
         token_symbol := some sp.1 }]
    else []

/-- Body of the `for i, tx in enumerate(txs)` loop (lines 111-205): read the
timestamp (exception → skip the transaction), format the date, look up the
SOL price, skip the whole transaction when the lookup returns the `0.0`
sentinel (`if price_usd == 0.0: continue`), otherwise process the native
transfers then the token transfers.  Returns the appended rows. -/
def processTransaction (addr : String) (whale_threshold : ℚ)
    (price_df : PriceDf) (tx : RawTransaction) : List WhaleTx :=
  match tx.timestamp with
  | .error _ => []
  | .ok ts =>
    let date_str := utcDateString ts
    let price_usd := get_token_price_usd date_str price_df
    if price_usd = 0 then []
    else
      (tx.nativeTransfers.flatMap
        (processNativeTransfer addr whale_threshold price_usd ts date_str
          tx.signature)) ++
      (tx.tokenTransfers.flatMap
        (processTokenTransfer addr whale_threshold price_usd ts date_str
          tx.signature))

/-- An HTTP response of the transactions endpoint: a status code and, for
use when the status is accepted, the parse result of `response.json()`
(`.error ()` models a body `json()` raises on). -/
structure HttpResp where
  status : ℕ
  body : Except Unit (List RawTransaction)

/-- `fetch_transactions_for_wallet` (lines 38-64), with the HTTP transport
supplied as an oracle from wallet address to response:
`response.raise_for_status()` raises `HTTPError` exactly for 4xx/5xx
status codes, after which the JSON body is returned. -/
def fetch_transactions_for_wallet (http : String → HttpResp)
    (address : String) : Except Unit (List RawTransaction) :=
  let resp := http address
  if 400 ≤ resp.status ∧ resp.status < 600 then .error ()
  else resp.body

/-- Body of the `for addr in addresses` loop (lines 103-209): any exception
while fetching or parsing the wallet's transaction list is caught at
address level (`except` at line 207, log and continue); otherwise each
transaction is processed in order. -/
def processAddress (http : String → HttpResp) (whale_threshold : ℚ)
    (price_df : PriceDf) (addr : String) : List WhaleTx :=
  match fetch_transactions_for_wallet http addr with
  | .error _ => []
  | .ok txs => txs.flatMap (processTransaction addr whale_threshold price_df)

/-- The complete `all_whale_txs` accumulation over the address list. -/
def collectWhaleTxs (http : String → HttpResp) (whale_threshold : ℚ)
    (price_df : PriceDf) (addresses : List String) : List WhaleTx :=
  addresses.flatMap (processAddress http whale_threshold price_df)

/-! ### Valued candidates (threshold test factored out)

For claim C7 ("the output retains exactly those valued transfers with
`usd_value >= threshold`") the same processing is written with the
threshold comparison removed: every successfully valued transfer is kept.
`collectWhaleTxs` is then proved equal to filtering these candidates. -/

/-- `processNativeTransfer` without the `usd_value >= whale_threshold`
test: the successfully valued native row. -/
def nativeCandidate (addr : String) (price_usd : ℚ) (ts : Int)
    (date_str : String) (signature : Option String)
    (t : RawNativeTransfer) : List WhaleTx :=
  match t.amount with
  | .error _ => []
  | .ok amount_lamports =>
    let amount_sol := amount_lamports / 1000000000
    [{ wallet := addr, type := .NATIVE_SOL, amount := amount_sol,
       usd_value := amount_sol * price_usd, fromAcct := t.fromUserAccount,
       toAcct := t.toUserAccount, timestamp := ts, date := date_str,
       signature := signature, token_address := WSOL_MINT,
       token_symbol := none }]

/-- `processTokenTransfer` without the threshold test. -/
def tokenCandidate (addr : String) (price_usd : ℚ) (ts : Int)
    (date_str : String) (signature : Option String)
    (t : RawTokenTransfer) : List WhaleTx :=
  match t.tokenAmount with
  | .error _ => []
  | .ok amount =>
    let sp : String × ℚ :=
      if t.mint = WSOL_MINT then ("wSOL", price_usd)
      else if t.mint = USDC_MINT then ("USDC", 1)
      else if t.mint = USDT_MINT then ("USDT", 1)
      else ("TOKEN-" ++ t.mint.take 8 ++ "...", 1)
    [{ wallet := addr, type := .TOKEN, amount := amount,
       usd_value := amount * sp.2, fromAcct := t.fromUserAccount,
       toAcct := t.toUserAccount, timestamp := ts, date := date_str,
       signature := signature, token_address := t.mint,
       token_symbol := some sp.1 }]

/-- `processTransaction` with candidates in place of retained rows. -/
def txCandidates (addr : String) (price_df : PriceDf)
    (tx : RawTransaction) : List WhaleTx :=
  match tx.timestamp with
  | .error _ => []
  | .ok ts =>
    let date_str := utcDateString ts
    let price_usd := get_token_price_usd date_str price_df
    if price_usd = 0 then []
    else
      (tx.nativeTransfers.flatMap
        (nativeCandidate addr price_usd ts date_str tx.signature)) ++
      (tx.tokenTransfers.flatMap
        (tokenCandidate addr price_usd ts date_str tx.signature))

/-- All successfully valued transfers across the address list. -/
def collectCandidates (http : String → HttpResp) (price_df : PriceDf)
    (addresses : List String) : List WhaleTx :=
  addresses.flatMap (fun addr =>
    match fetch_transactions_for_wallet http addr with
    | .error _ => []
    | .ok txs => txs.flatMap (txCandidates addr price_df))

/-! ### The sort: pandas `sort_values("usd_value", ascending=False)`

Line 225 sorts the result frame with pandas' `DataFrame.sort_values` and
the default `kind='quicksort'`.  For a single `by` column pandas computes
`nargsort(values, kind, ascending=False)`: it reverses the values and the
positional index, argsorts the reversed values with the numpy kernel,
gathers the reversed index through that argsort, and reverses the
resulting indexer.  numpy's `kind='quicksort'` is the introsort argsort
kernel `aquicksort`: median-of-3 quicksort partitioning for segments of
more than `SMALL_QUICKSORT = 15` positions, an in-place right-to-left
insertion sort for smaller segments, and the heapsort kernel `aheapsort`
once the depth budget `2*msb(n)` is spent.  The kernel is modelled below
positionally on a `List ℕ` of indices; each loop takes an explicit fuel
argument that strictly dominates its possible iteration count (exhaustion
would return the current state, but the fuel supplied at the top level is
larger than any reachable iteration count). -/

/-- `tosort[i]` — reads of the index array (in-range whenever the kernel's
invariants hold; the default is never reached). -/
def getI (ts : List ℕ) (i : ℕ) : ℕ := ts.getD i 0

/-- `tosort[i] = x`. -/
def setI (ts : List ℕ) (i x : ℕ) : List ℕ := ts.set i x

/-- `INTP_SWAP(tosort[i], tosort[j])`. -/
def swapI (ts : List ℕ) (i j : ℕ) : List ℕ :=
  let a := getI ts i
  let b := getI ts j
  setI (setI ts i b) j a

/-- numpy `SMALL_QUICKSORT`: partition only segments longer than this. -/
def SMALL_QUICKSORT : ℕ := 15

/-- `a[i]` of the heapsort kernel: 1-based access into the segment
starting at `pl` (the kernel sets `a = tosort - 1`). -/
def hGet (ts : List ℕ) (pl i : ℕ) : ℕ := getI ts (pl + i - 1)

/-- `a[i] = x` of the heapsort kernel. -/
def hSet (ts : List ℕ) (pl i x : ℕ) : List ℕ := setI ts (pl + i - 1) x

/-- The sift loop shared by both phases of `aheapsort`
(`for (i = l, j = l*2; j <= n;) ... a[i] = tmp`). -/
def heapSift (v : ℕ → ℚ) (pl n tmp : ℕ) : ℕ → ℕ → ℕ → List ℕ → List ℕ
  | 0, i, _, ts => hSet ts pl i tmp
  | fuel + 1, i, j, ts =>
    if j ≤ n then
      let j := if j < n ∧ v (hGet ts pl j) < v (hGet ts pl (j + 1)) then j + 1 else j
      if v tmp < v (hGet ts pl j) then
        heapSift v pl n tmp fuel j (2 * j) (hSet ts pl i (hGet ts pl j))
      else hSet ts pl i tmp
    else hSet ts pl i tmp

/-- The heap-construction loop of `aheapsort`
(`for (l = n >> 1; l > 0; --l)`). -/
def heapBuild (v : ℕ → ℚ) (pl n : ℕ) : ℕ → List ℕ → List ℕ
  | 0, ts => ts
  | l + 1, ts =>
    heapBuild v pl n l
      (heapSift v pl n (hGet ts pl (l + 1)) (n + 1) (l + 1) (2 * (l + 1)) ts)

/-- The extraction loop of `aheapsort` (`for (; n > 1;)`): swap the root
out, shrink the heap, re-sift. -/
def heapExtract (v : ℕ → ℚ) (pl : ℕ) : ℕ → List ℕ → List ℕ
  | 0, ts => ts
  | 1, ts => ts
  | n + 2, ts =>
    let tmp := hGet ts pl (n + 2)
    let ts := hSet ts pl (n + 2) (hGet ts pl 1)
    heapExtract v pl (n + 1) (heapSift v pl (n + 1) tmp (n + 2) 1 2 ts)

/-- numpy's argsort heapsort kernel `aheapsort(vv, tosort + pl, n)`,
applied to the segment of `n` positions starting at `pl`. -/
def aheapsort (v : ℕ → ℚ) (ts : List ℕ) (pl n : ℕ) : List ℕ :=
  heapExtract v pl n (heapBuild v pl n (n / 2) ts)

/-- One step of `aquicksort`'s small-segment insertion sort
(`for (pi = pl + 1; pi <= pr; ++pi)`): the C loop shifts the sorted run
right while `vp < v[*pk]` and drops `vi` into the gap.  The run is carried
rightmost-first (reversed), which makes that right-to-left scan
structural: hop over the entries whose value exceeds `v vi`, place `vi`. -/
def insStep (v : ℕ → ℚ) (vi : ℕ) : List ℕ → List ℕ
  | [] => [vi]
  | j :: rest => if v vi < v j then j :: insStep v vi rest else vi :: j :: rest

/-- The whole small-segment insertion sort: positions taken left to right,
each inserted into the sorted run, the run (kept reversed) reversed back
at the end. -/
def insRun (v : ℕ → ℚ) (seg : List ℕ) : List ℕ :=
  (seg.foldl (fun acc i => insStep v i acc) []).reverse

/-- `do ++pi; while (v[*pi] < vp)`: the first position beyond `p` whose
value is not below the pivot. -/
def scanR (v : ℕ → ℚ) (vp : ℚ) (ts : List ℕ) : ℕ → ℕ → ℕ
  | 0, p => p + 1
  | fuel + 1, p =>
    if v (getI ts (p + 1)) < vp then scanR v vp ts fuel (p + 1) else p + 1

/-- `do --pj; while (vp < v[*pj])`: the first position below `p` whose
value is not above the pivot. -/
def scanL (v : ℕ → ℚ) (vp : ℚ) (ts : List ℕ) : ℕ → ℕ → ℕ
  | 0, p => p - 1
  | fuel + 1, p =>
    if vp < v (getI ts (p - 1)) then scanL v vp ts fuel (p - 1) else p - 1

/-- The partition exchange loop of `aquicksort`
(`for (;;) { do ++pi ...; do --pj ...; if (pi >= pj) break; swap; }`);
returns the array and the crossing position `pi`. -/
def partLoop (v : ℕ → ℚ) (vp : ℚ) : ℕ → List ℕ → ℕ → ℕ → List ℕ × ℕ
  | 0, ts, p, _ => (ts, p)
  | fuel + 1, ts, p, q =>
    let p := scanR v vp ts ts.length p
    let q := scanL v vp ts ts.length q
    if p ≥ q then (ts, p)
    else partLoop v vp fuel (swapI ts p q) p q

/-- The main loop of `aquicksort`: `(pl, pr)` the current inclusive
segment, `stk` the saved segments, `depth` the remaining `depth_limit`
(checked, then decremented, once per big-segment iteration). -/
def aquicksortMain (v : ℕ → ℚ) : ℕ → List ℕ → List (ℕ × ℕ) → ℕ → ℕ → Int → List ℕ
  | 0, ts, _, _, _, _ => ts
  | fuel + 1, ts, stk, pl, pr, depth =>
    if SMALL_QUICKSORT < pr - pl then
      if depth < 0 then
        let ts := aheapsort v ts pl (pr - pl + 1)
        match stk with
        | [] => ts
        | (l, r) :: rest => aquicksortMain v fuel ts rest l r (depth - 1)
      else
        let pm := pl + (pr - pl) / 2
        let ts := if v (getI ts pm) < v (getI ts pl) then swapI ts pm pl else ts
        let ts := if v (getI ts pr) < v (getI ts pm) then swapI ts pr pm else ts
        let ts := if v (getI ts pm) < v (getI ts pl) then swapI ts pm pl else ts
        let vp := v (getI ts pm)
        let ts := swapI ts pm (pr - 1)
        let pq := partLoop v vp (ts.length + 1) ts pl (pr - 1)
        let ts := swapI pq.1 pq.2 (pr - 1)
        let pi := pq.2
        if pi - pl < pr - pi then
          aquicksortMain v fuel ts ((pi + 1, pr) :: stk) pl (pi - 1) (depth - 1)
        else
          aquicksortMain v fuel ts ((pl, pi - 1) :: stk) (pi + 1) pr (depth - 1)
    else
      let seg := (ts.drop pl).take (pr + 1 - pl)
      let ts := ts.take pl ++ insRun v seg ++ ts.drop (pr + 1)
      match stk with
      | [] => ts
      | (l, r) :: rest => aquicksortMain v fuel ts rest l r depth

/-- numpy `np.argsort(values, kind='quicksort')` for a length-`n` value
mapping: the index array `0..n-1` run through the introsort kernel with
depth budget `2 * msb(n)`.  The fuel `2*n + 2` dominates the number of
main-loop iterations (at most one partition per settled pivot plus one
insertion run and pop per stacked segment). -/
def npy_aquicksort (v : ℕ → ℚ) (n : ℕ) : List ℕ :=
  aquicksortMain v (2 * n + 2) (List.range n) [] 0 (n - 1) (2 * (Nat.log2 n : Int))

/-- pandas `nargsort(values, kind='quicksort', ascending=False)` for a
fully non-null column (`pandas/core/sorting.py`): reverse the values and
the positional index, argsort the reversed values, gather the reversed
index through the argsort, reverse the result. -/
def nargsortDesc (vals : List ℚ) : List ℕ :=
  let n := vals.length
  let rev := vals.reverse
  let tosort := npy_aquicksort (fun i => rev.getD i 0) n
  (tosort.map (fun t => n - 1 - t)).reverse

/-- `df.sort_values("usd_value", ascending=False)` (line 225): the rows
permuted by the pandas indexer. -/
def sort_values_usd_desc (rows : List WhaleTx) : List WhaleTx :=
  (nargsortDesc (rows.map (fun w => w.usd_value))).map
    (fun i => rows.getD i dummyTx)

/-- The ascending order the numpy insertion run realises on positions:
smaller value first, equal values in position order.  Proof-internal. -/
def lexLt (v : ℕ → ℚ) (i j : ℕ) : Prop :=
  v i < v j ∨ (v i = v j ∧ i < j)

/-- "Row `i` sorts strictly before row `j`" for a stable descending sort
of `vals`: larger value first, equal values in original (discovery)
order. -/
def stableDescRel (vals : List ℚ) (i j : ℕ) : Prop :=
  vals.getD j 0 < vals.getD i 0 ∨ (vals.getD i 0 = vals.getD j 0 ∧ i < j)

instance (vals : List ℚ) : DecidableRel (stableDescRel vals) := fun i j => by
  unfold stableDescRel
  infer_instance

/-! ### The aggregator's outer shell -/

/-- Failures raised before any address is processed and not caught inside
`fetch_whale_transactions`: `get_api_key` (src/env.py) raises
`KeyError` / `EnvironmentError` when the key's env-var name or value is
missing, and `cfg.get_date` (src/config.py) raises `ValueError` on a
malformed date string.  Each aborts the call. -/
inductive ConfigError where
  | keyError
  | envError
  | valueError
deriving DecidableEq, Repr

/-- `pd.read_csv(address_file)["address"].dropna().unique().tolist()`
(line 97): drop blank cells, keep first occurrences in order. -/
def dedupAddresses (rows : List (Option String)) : List String :=
  (rows.filterMap id).foldl (fun acc a => if a ∈ acc then acc else acc ++ [a]) []

/-- `fetch_whale_transactions(cfg, price_df)` (lines 67-237), from the
configuration reads onward.  `helius_key` is the outcome of
`get_api_key("helius", cfg)` and `dates` the combined outcome of the two
`cfg.get_date` calls; a raise from either propagates out of the function
(the API key's value is otherwise only consumed by the HTTP oracle
`http`).  `addressFile` is `none` when `address_file.exists()` is false —
the function then logs an error and returns an empty frame (lines 93-95) —
and otherwise holds the CSV's `address` column.  The collected rows are
returned as-is when empty (lines 216-222), otherwise sorted by
`usd_value` descending; writing the CSV (lines 227-231) is a side effect
outside the model. -/
def fetch_whale_transactions (helius_key : Except ConfigError String)
    (dates : Except ConfigError Unit)
    (addressFile : Option (List (Option String)))
    (http : String → HttpResp) (whale_threshold : ℚ) (price_df : PriceDf) :
    Except ConfigError (List WhaleTx) := do
  let _ ← helius_key
  let _ ← dates
  match addressFile with
  | none => pure []
  | some rows =>
    let addresses := dedupAddresses rows
    let collected := collectWhaleTxs http whale_threshold price_df addresses
    if collected.isEmpty then pure []
    else pure (sort_values_usd_desc collected)

/-! ### Concrete data for the sort-stability analysis (claim C3) -/

/-- Seventeen distinct unknown-mint identifiers, the discovery order of
the counterexample's transfers. -/
def c3Mints : List String :=
  ["M00", "M01", "M02", "M03", "M04", "M05", "M06", "M07", "M08", "M09",
   "M10", "M11", "M12", "M13", "M14", "M15", "M16"]

/-- One transaction carrying seventeen 100-unit token transfers of
distinct unknown mints — seventeen rows of equal `usd_value` 100. -/
def c3Tx : RawTransaction :=
  ⟨.ok 0, some "s", [], c3Mints.map (fun m => ⟨m, .ok 100, none, none⟩)⟩

/-- HTTP oracle answering every address with that one transaction. -/
def c3Http : String → HttpResp := fun _ => ⟨200, .ok [c3Tx]⟩

/-- Transactions for the spec's worked example: address "A" yields token
transfers worth 300 and 150, address "B" yields one worth 500. -/
def c3ExHttp : String → HttpResp := fun a =>
  if a = "A" then
    ⟨200, .ok [⟨.ok 0, some "s", [],
      [⟨"MA", .ok 300, none, none⟩, ⟨"MC", .ok 150, none, none⟩]⟩]⟩
  else ⟨200, .ok [⟨.ok 0, some "s", [], [⟨"MB", .ok 500, none, none⟩]⟩]⟩

/-! ## Helper lemmas -/

/-- A date absent from the index selects nothing. -/
theorem filter_date_nil {d : String} {df : PriceDf}
    (h : d ∉ df.map (fun r => r.date)) :
    df.filter (fun r => r.date == d) = [] := by
  rw [List.filter_eq_nil_iff]
  intro r hr
  simp only [beq_iff_eq]
  intro hrd
  exact h (List.mem_map.mpr ⟨r, hr, hrd⟩)

/-- When the exact-date selection is non-empty, the lookup returns its
first row's price. -/
theorem lookup_of_filter_cons {d : String} {df : PriceDf} {q : PriceRow}
    {t : List PriceRow} (h : df.filter (fun r => r.date == d) = q :: t) :
    get_token_price_usd d df = q.price := by
  unfold get_token_price_usd
  rw [h]

/-- An empty index always yields the `0.0` sentinel. -/
theorem lookup_nil (d : String) : get_token_price_usd d [] = 0 := rfl

/-- With an empty price index every transaction is skipped by the
`price_usd == 0.0` guard. -/
theorem processTransaction_nil_df (addr : String) (th : ℚ)
    (tx : RawTransaction) : processTransaction addr th [] tx = [] := by
  unfold processTransaction
  cases h : tx.timestamp with
  | error e => rfl
  | ok ts => simp [lookup_nil]

/-! ## Claim C9 -/

/-- Claim C9: for every date D present in the Price Index (whose dates
are pairwise distinct, as `fetch_price` builds it), `get_token_price_usd`
returns exactly the price stored for D. -/
theorem C9_theorem (df : PriceDf) (d : String) (p : ℚ)
    (hnd : (df.map (fun r => r.date)).Nodup)
    (hmem : (⟨d, p⟩ : PriceRow) ∈ df) :
    get_token_price_usd d df = p := by
  have hfmem : (⟨d, p⟩ : PriceRow) ∈ df.filter (fun r => r.date == d) :=
    List.mem_filter.mpr ⟨hmem, by simp⟩
  cases hf : df.filter (fun r => r.date == d) with
  | nil => rw [hf] at hfmem; cases hfmem
  | cons q t =>
    have hq : q ∈ df.filter (fun r => r.date == d) := by
      rw [hf]; exact List.mem_cons_self q t
    have hqdf : q ∈ df := (List.mem_filter.mp hq).1
    have hqd : q.date = d := by
      have := (List.mem_filter.mp hq).2
      simpa using this
    have : q = ⟨d, p⟩ := by
      apply List.inj_on_of_nodup_map hnd hqdf hmem
      rw [hqd]
    rw [lookup_of_filter_cons hf, this]

/-- Claim C9 witness: a concrete two-row index. -/
theorem C9_witness :
    ((([⟨"2025-01-01", 3⟩, ⟨"2025-01-02", 7⟩] : PriceDf).map
        (fun r => r.date)).Nodup
      ∧ (⟨"2025-01-02", 7⟩ : PriceRow) ∈
          ([⟨"2025-01-01", 3⟩, ⟨"2025-01-02", 7⟩] : PriceDf))
    ∧ get_token_price_usd "2025-01-02"
        [⟨"2025-01-01", 3⟩, ⟨"2025-01-02", 7⟩] = 7 :=
  ⟨⟨by decide, by decide⟩,
    C9_theorem [⟨"2025-01-01", 3⟩, ⟨"2025-01-02", 7⟩] "2025-01-02" 7
      (by decide) (by decide)⟩

/-! ## Claim C1 -/

/-- Claim C1 counterexample: the index stores 2025-01-01 ↦ 10 and
2025-01-05 ↦ 20; the date 2025-01-03 is absent and earlier than the
maximum stored date, the most recent stored price at a date ≤ D is 10,
yet the lookup returns 20 (the last row), so the backward-only
last-known-price reading is false. -/
theorem C1_counterexample :
    (([⟨"2025-01-01", 10⟩, ⟨"2025-01-05", 20⟩] : PriceDf) ≠ []
      ∧ "2025-01-03" ∉
          (([⟨"2025-01-01", 10⟩, ⟨"2025-01-05", 20⟩] : PriceDf).map
            (fun r => r.date))
      ∧ dateLt "2025-01-03" "2025-01-05" = true)
    ∧ specMostRecentPriceLE "2025-01-03"
        [⟨"2025-01-01", 10⟩, ⟨"2025-01-05", 20⟩] = some 10
    ∧ get_token_price_usd "2025-01-03"
        [⟨"2025-01-01", 10⟩, ⟨"2025-01-05", 20⟩] = 20
    ∧ (20 : ℚ) ≠ 10 := by
  refine ⟨⟨by decide, by decide, by decide⟩, by decide, by decide, by decide⟩

/-- Claim C1 (amended): for every non-empty price index and every date D
absent from it, the lookup returns the price of the LAST stored row — the
latest price in index order — regardless of whether any stored date is
≤ D. -/
theorem C1_theorem (df : PriceDf) (d : String) (h : df ≠ [])
    (habs : d ∉ df.map (fun r => r.date)) :
    get_token_price_usd d df = (df.getLast h).price := by
  unfold get_token_price_usd
  rw [filter_date_nil habs, List.getLast?_eq_getLast df h]

/-- Claim C1 (amended) witness: the counterexample index at the absent
date 2025-01-03 yields the last row's price. -/
theorem C1_witness :
    (([⟨"2025-01-01", 10⟩, ⟨"2025-01-05", 20⟩] : PriceDf) ≠ []
      ∧ "2025-01-03" ∉
          (([⟨"2025-01-01", 10⟩, ⟨"2025-01-05", 20⟩] : PriceDf).map
            (fun r => r.date)))
    ∧ get_token_price_usd "2025-01-03"
        [⟨"2025-01-01", 10⟩, ⟨"2025-01-05", 20⟩]
      = (([⟨"2025-01-01", 10⟩, ⟨"2025-01-05", 20⟩] : PriceDf).getLast
          (by decide)).price :=
  ⟨⟨by decide, by decide⟩,
    C1_theorem [⟨"2025-01-01", 10⟩, ⟨"2025-01-05", 20⟩] "2025-01-03"
      (by decide) (by decide)⟩

/-! ## Claim C10 -/

/-- Claim C10: with an empty price index every transaction is skipped by
the transaction-level `price_usd == 0.0` guard before any transfer is
examined, so for every address file and every HTTP behaviour the
aggregator returns the normal empty result — even fungible-token
transfers priced at the fixed 1.0 produce no row. -/
theorem C10_theorem (k : String) (addressFile : Option (List (Option String)))
    (http : String → HttpResp) (th : ℚ) :
    fetch_whale_transactions (.ok k) (.ok ()) addressFile http th [] = .ok [] := by
  cases addressFile with
  | none => rfl
  | some rows =>
    have hcol : ∀ addrs : List String, collectWhaleTxs http th [] addrs = [] := by
      intro addrs
      unfold collectWhaleTxs
      rw [List.flatMap_eq_nil_iff]
      intro a _
      unfold processAddress
      cases fetch_transactions_for_wallet http a with
      | error e => rfl
      | ok txs =>
        rw [List.flatMap_eq_nil_iff]
        intro tx _
        exact processTransaction_nil_df a th tx
    have hdef : fetch_whale_transactions (.ok k) (.ok ()) (some rows) http th []
        = (if (collectWhaleTxs http th [] (dedupAddresses rows)).isEmpty
            then Except.ok []
            else Except.ok (sort_values_usd_desc
              (collectWhaleTxs http th [] (dedupAddresses rows)))) := rfl
    rw [hdef, hcol (dedupAddresses rows)]
    rfl

/-! ## Claim C4 -/

/-- Claim C4 counterexample: with valid configuration, a missing
address-list file (`addressFile = none`) yields the normal return
`.ok []` — the very value a valid empty-set run (`addressFile = some []`)
yields — not a raised `ConfigError`; the two outcomes are
indistinguishable to the caller except by log inspection. -/
theorem C4_counterexample :
    fetch_whale_transactions (.ok "key") (.ok ()) none
        (fun _ => ⟨200, .ok []⟩) 100 [⟨"1970-01-01", 150⟩] = .ok []
    ∧ fetch_whale_transactions (.ok "key") (.ok ()) (some [])
        (fun _ => ⟨200, .ok []⟩) 100 [⟨"1970-01-01", 150⟩] = .ok [] := by
  exact ⟨rfl, rfl⟩

/-- Claim C4 (amended): a missing address-list file does NOT abort the
run — the aggregator logs the error and returns the normal empty result,
identical to the valid empty-set outcome; only the configuration reads
that precede it (API key resolution, date parsing) abort the call by
raising. -/
theorem C4_theorem :
    (∀ (k : String) (http : String → HttpResp) (th : ℚ) (df : PriceDf),
        fetch_whale_transactions (.ok k) (.ok ()) none http th df = .ok [])
    ∧ (∀ (e : ConfigError) (dates : Except ConfigError Unit)
        (af : Option (List (Option String))) (http : String → HttpResp)
        (th : ℚ) (df : PriceDf),
        fetch_whale_transactions (.error e) dates af http th df = .error e)
    ∧ (∀ (k : String) (e : ConfigError) (af : Option (List (Option String)))
        (http : String → HttpResp) (th : ℚ) (df : PriceDf),
        fetch_whale_transactions (.ok k) (.error e) af http th df
          = .error e) := by
  refine ⟨fun _ _ _ _ => rfl, fun _ _ _ _ _ _ => rfl, fun _ _ _ _ _ _ => rfl⟩

/-! ## Claim C6 -/

/-- A failed fetch contributes nothing for that address. -/
theorem processAddress_of_fetch_error {http : String → HttpResp}
    {a : String} (th : ℚ) (df : PriceDf)
    (h : fetch_transactions_for_wallet http a = .error ()) :
    processAddress http th df a = [] := by
  unfold processAddress
  rw [h]

/-- Claim C6: an address whose fetch fails with an upstream error
contributes zero transfers and does not halt processing — the collected
output over any address list containing it equals the concatenation of
the contributions of the addresses before and after it. -/
theorem C6_theorem (http : String → HttpResp) (th : ℚ) (df : PriceDf)
    (pre post : List String) (a : String)
    (h : fetch_transactions_for_wallet http a = .error ()) :
    collectWhaleTxs http th df (pre ++ a :: post)
      = collectWhaleTxs http th df pre ++ collectWhaleTxs http th df post := by
  unfold collectWhaleTxs
  rw [List.flatMap_append, List.flatMap_cons,
    processAddress_of_fetch_error th df h, List.nil_append]

/-- Claim C6 witness: address "B" answers 500, "A" and "C" answer a
transaction carrying one 500-unit unknown-mint token transfer; "B"
contributes nothing and "C" is still processed (its contribution is
non-empty). -/
theorem C6_witness :
    (fetch_transactions_for_wallet
        (fun addr => if addr = "B" then ⟨500, .ok []⟩
          else ⟨200, .ok [⟨.ok 0, some "s", [],
            [⟨"MX", .ok 500, none, none⟩]⟩]⟩) "B" = .error ())
    ∧ collectWhaleTxs
        (fun addr => if addr = "B" then ⟨500, .ok []⟩
          else ⟨200, .ok [⟨.ok 0, some "s", [],
            [⟨"MX", .ok 500, none, none⟩]⟩]⟩) 100 [⟨"1970-01-01", 1⟩]
        (["A"] ++ "B" :: ["C"])
      = collectWhaleTxs
          (fun addr => if addr = "B" then ⟨500, .ok []⟩
            else ⟨200, .ok [⟨.ok 0, some "s", [],
              [⟨"MX", .ok 500, none, none⟩]⟩]⟩) 100 [⟨"1970-01-01", 1⟩] ["A"]
        ++ collectWhaleTxs
            (fun addr => if addr = "B" then ⟨500, .ok []⟩
              else ⟨200, .ok [⟨.ok 0, some "s", [],
                [⟨"MX", .ok 500, none, none⟩]⟩]⟩) 100 [⟨"1970-01-01", 1⟩]
            ["C"]
    ∧ collectWhaleTxs
        (fun addr => if addr = "B" then ⟨500, .ok []⟩
          else ⟨200, .ok [⟨.ok 0, some "s", [],
            [⟨"MX", .ok 500, none, none⟩]⟩]⟩) 100 [⟨"1970-01-01", 1⟩] ["C"]
      ≠ [] :=
  ⟨by decide,
    C6_theorem _ 100 [⟨"1970-01-01", 1⟩] ["A"] ["C"] "B" (by decide),
    by decide⟩

/-! ## Claim C5 -/

/-- Claim C5: a transaction carrying one malformed transfer and one
valid, qualifying transfer yields exactly one row — the failure is
caught at transfer granularity and the remaining transfer is still
processed — for native pairs in either order, for token pairs in either
order, and for both mixed transactions (valid-native with
malformed-token, and malformed-native with valid-token). -/
theorem C5_theorem (addr : String) (th : ℚ) (df : PriceDf)
    (sig : Option String) (ts : Int) (bad good : RawNativeTransfer)
    (tbad tgood : RawTokenTransfer) (a b : ℚ)
    (hbad : bad.amount = .error ())
    (hgood : good.amount = .ok a)
    (htbad : tbad.tokenAmount = .error ())
    (htgood : tgood.tokenAmount = .ok b)
    (hmint : tgood.mint = USDC_MINT)
    (hp : get_token_price_usd (utcDateString ts) df ≠ 0)
    (hth : th ≤ a / 1000000000 * get_token_price_usd (utcDateString ts) df)
    (hthb : th ≤ b) :
    (processTransaction addr th df ⟨.ok ts, sig, [bad, good], []⟩).length = 1
    ∧ (processTransaction addr th df ⟨.ok ts, sig, [good, bad], []⟩).length
        = 1
    ∧ (processTransaction addr th df ⟨.ok ts, sig, [], [tbad, tgood]⟩).length
        = 1
    ∧ (processTransaction addr th df ⟨.ok ts, sig, [], [tgood, tbad]⟩).length
        = 1
    ∧ (processTransaction addr th df ⟨.ok ts, sig, [good], [tbad]⟩).length
        = 1
    ∧ (processTransaction addr th df ⟨.ok ts, sig, [bad], [tgood]⟩).length
        = 1 := by
  refine ⟨?_, ?_, ?_, ?_, ?_, ?_⟩ <;>
    simp [processTransaction, processNativeTransfer, processTokenTransfer,
      hbad, hgood, htbad, htgood, hmint, hp, hth, hthb,
      WSOL_MINT, USDC_MINT]

/-- Claim C5 witness: a malformed-amount transfer next to a valid
1-SOL transfer at price 150 (and a malformed token transfer next to a
valid 500-USDC one, in all kind combinations), threshold 100. -/
theorem C5_witness :
    ((⟨.error (), none, none⟩ : RawNativeTransfer).amount = .error ()
      ∧ (⟨.ok 1000000000, some "x", some "y"⟩ : RawNativeTransfer).amount
          = .ok 1000000000
      ∧ (⟨"", .error (), none, none⟩ : RawTokenTransfer).tokenAmount
          = .error ()
      ∧ (⟨USDC_MINT, .ok 500, none, none⟩ : RawTokenTransfer).tokenAmount
          = .ok 500
      ∧ (⟨USDC_MINT, .ok 500, none, none⟩ : RawTokenTransfer).mint
          = USDC_MINT
      ∧ get_token_price_usd (utcDateString 0) [⟨"1970-01-01", 150⟩] ≠ 0
      ∧ (100 : ℚ) ≤ 1000000000 / 1000000000
          * get_token_price_usd (utcDateString 0) [⟨"1970-01-01", 150⟩]
      ∧ (100 : ℚ) ≤ 500)
    ∧ (processTransaction "A" 100 [⟨"1970-01-01", 150⟩]
        ⟨.ok 0, some "s",
          [⟨.error (), none, none⟩, ⟨.ok 1000000000, some "x", some "y"⟩],
          []⟩).length = 1
    ∧ (processTransaction "A" 100 [⟨"1970-01-01", 150⟩]
        ⟨.ok 0, some "s",
          [⟨.ok 1000000000, some "x", some "y"⟩, ⟨.error (), none, none⟩],
          []⟩).length = 1
    ∧ (processTransaction "A" 100 [⟨"1970-01-01", 150⟩]
        ⟨.ok 0, some "s", [],
          [⟨"", .error (), none, none⟩,
           ⟨USDC_MINT, .ok 500, none, none⟩]⟩).length = 1
    ∧ (processTransaction "A" 100 [⟨"1970-01-01", 150⟩]
        ⟨.ok 0, some "s", [],
          [⟨USDC_MINT, .ok 500, none, none⟩,
           ⟨"", .error (), none, none⟩]⟩).length = 1
    ∧ (processTransaction "A" 100 [⟨"1970-01-01", 150⟩]
        ⟨.ok 0, some "s", [⟨.ok 1000000000, some "x", some "y"⟩],
          [⟨"", .error (), none, none⟩]⟩).length = 1
    ∧ (processTransaction "A" 100 [⟨"1970-01-01", 150⟩]
        ⟨.ok 0, some "s", [⟨.error (), none, none⟩],
          [⟨USDC_MINT, .ok 500, none, none⟩]⟩).length = 1 :=
  ⟨⟨by decide, by decide, by decide, by decide, by decide, by decide,
     by decide, by decide⟩,
    C5_theorem "A" 100 [⟨"1970-01-01", 150⟩] (some "s") 0
      ⟨.error (), none, none⟩ ⟨.ok 1000000000, some "x", some "y"⟩
      ⟨"", .error (), none, none⟩ ⟨USDC_MINT, .ok 500, none, none⟩
      1000000000 500 (by decide) (by decide) (by decide) (by decide)
      (by decide) (by decide) (by decide) (by decide)⟩

/-! ## Claim C8 -/

/-- Claim C8: a native transfer's base-unit amount is divided by 10⁹ and
multiplied by the looked-up price; the qualifying row records exactly
those values. -/
theorem C8_theorem (addr : String) (th : ℚ) (df : PriceDf)
    (sig : Option String) (ts : Int) (t : RawNativeTransfer) (a : ℚ)
    (ha : t.amount = .ok a)
    (hp : get_token_price_usd (utcDateString ts) df ≠ 0)
    (hth : th ≤ a / 1000000000 * get_token_price_usd (utcDateString ts) df) :
    processTransaction addr th df ⟨.ok ts, sig, [t], []⟩
      = [{ wallet := addr, type := .NATIVE_SOL, amount := a / 1000000000,
           usd_value := a / 1000000000
             * get_token_price_usd (utcDateString ts) df,
           fromAcct := t.fromUserAccount, toAcct := t.toUserAccount,
           timestamp := ts, date := utcDateString ts, signature := sig,
           token_address := WSOL_MINT, token_symbol := none }] := by
  simp [processTransaction, processNativeTransfer, ha, hp, hth]

/-- Claim C8 witness: 1,000,000,000 base units at price 150.00 yields
`usd_value` exactly 150.00 (and display amount exactly 1). -/
theorem C8_witness :
    ((⟨.ok 1000000000, some "x", some "y"⟩ : RawNativeTransfer).amount
        = .ok 1000000000
      ∧ get_token_price_usd (utcDateString 0) [⟨"1970-01-01", 150⟩] ≠ 0
      ∧ (100 : ℚ) ≤ 1000000000 / 1000000000
          * get_token_price_usd (utcDateString 0) [⟨"1970-01-01", 150⟩])
    ∧ processTransaction "A" 100 [⟨"1970-01-01", 150⟩]
        ⟨.ok 0, some "s", [⟨.ok 1000000000, some "x", some "y"⟩], []⟩
      = [{ wallet := "A", type := .NATIVE_SOL, amount := 1,
           usd_value := 150, fromAcct := some "x", toAcct := some "y",
           timestamp := 0, date := "1970-01-01", signature := some "s",
           token_address := WSOL_MINT, token_symbol := none }] :=
  by
  refine ⟨⟨by decide, by decide, by decide⟩, ?_⟩
  have h := C8_theorem "A" 100 [⟨"1970-01-01", 150⟩] (some "s") 0
    ⟨.ok 1000000000, some "x", some "y"⟩ 1000000000
    (by decide) (by decide) (by decide)
  exact h.trans (by decide)

/-! ## Claim C2 -/

/-- Claim C2 counterexample: with an EMPTY price index, a 500-unit USDC
transfer (threshold 100) produces no row at all — the transaction-level
`price_usd == 0.0` guard skips it before the stablecoin price is ever
resolved — so `usd_value = amount` does not hold "regardless of Price
Index contents". -/
theorem C2_counterexample :
    processTransaction "A" 100 []
        ⟨.ok 0, some "s", [], [⟨USDC_MINT, .ok 500, none, none⟩]⟩ = []
    ∧ fetch_whale_transactions (.ok "key") (.ok ()) (some [some "A"])
        (fun _ => ⟨200, .ok [⟨.ok 0, some "s", [],
          [⟨USDC_MINT, .ok 500, none, none⟩]⟩]⟩) 100 [] = .ok []
    ∧ (100 : ℚ) ≤ 500 :=
  ⟨by decide, by decide, by decide⟩

/-- Claim C2 (amended): a stablecoin-mint token transfer resolves to the
fixed unit price 1.0 and `usd_value = amount` — provided the transaction
survives the transaction-level price guard, i.e. the native-price lookup
for its date is non-zero (in particular the Price Index must be
non-empty). -/
theorem C2_theorem (addr : String) (th : ℚ) (df : PriceDf)
    (sig : Option String) (ts : Int) (t : RawTokenTransfer) (a : ℚ)
    (hmint : t.mint = USDC_MINT ∨ t.mint = USDT_MINT)
    (ha : t.tokenAmount = .ok a)
    (hp : get_token_price_usd (utcDateString ts) df ≠ 0) :
    (processTransaction addr th df ⟨.ok ts, sig, [], [t]⟩).map
        (fun w => w.usd_value)
      = if th ≤ a then [a] else [] := by
  cases hmint with
  | inl h =>
    simp [processTransaction, processTokenTransfer, ha, hp, h,
      WSOL_MINT, USDC_MINT, apply_ite]
  | inr h =>
    simp [processTransaction, processTokenTransfer, ha, hp, h,
      WSOL_MINT, USDC_MINT, USDT_MINT, apply_ite]

/-- Claim C2 (amended) witness: a 500-unit USDC transfer against a
non-empty index values at exactly 500. -/
theorem C2_witness :
    (((⟨USDC_MINT, .ok 500, none, none⟩ : RawTokenTransfer).mint = USDC_MINT
        ∨ (⟨USDC_MINT, .ok 500, none, none⟩ : RawTokenTransfer).mint
            = USDT_MINT)
      ∧ (⟨USDC_MINT, .ok 500, none, none⟩ : RawTokenTransfer).tokenAmount
          = .ok 500
      ∧ get_token_price_usd (utcDateString 0) [⟨"1970-01-01", 1⟩] ≠ 0)
    ∧ (processTransaction "A" 100 [⟨"1970-01-01", 1⟩]
        ⟨.ok 0, some "s", [], [⟨USDC_MINT, .ok 500, none, none⟩]⟩).map
          (fun w => w.usd_value)
      = if (100 : ℚ) ≤ 500 then [500] else [] :=
  ⟨⟨Or.inl rfl, by decide, by decide⟩,
    C2_theorem "A" 100 [⟨"1970-01-01", 1⟩] (some "s") 0
      ⟨USDC_MINT, .ok 500, none, none⟩ 500 (Or.inl rfl) (by decide)
      (by decide)⟩

/-! ## Claim C7 -/

/-- A guarded singleton is the filtered singleton when the guard is the
filter's predicate. -/
theorem ite_singleton_eq_filter {x : WhaleTx} {th : ℚ} {c : Prop}
    [Decidable c] (h : c ↔ th ≤ x.usd_value) :
    (if c then [x] else [])
      = [x].filter (fun w => decide (th ≤ w.usd_value)) := by
  rw [List.filter_singleton]
  by_cases hc : c
  · have hx : th ≤ x.usd_value := h.mp hc
    simp [hc, hx]
  · have hx : ¬ th ≤ x.usd_value := fun hh => hc (h.mpr hh)
    simp [hc, hx]

/-- The retained native rows are the candidates passing the threshold. -/
theorem processNativeTransfer_eq_filter (addr : String) (th p : ℚ) (ts : Int)
    (d : String) (sig : Option String) (t : RawNativeTransfer) :
    processNativeTransfer addr th p ts d sig t
      = (nativeCandidate addr p ts d sig t).filter
          (fun w => decide (th ≤ w.usd_value)) := by
  unfold processNativeTransfer nativeCandidate
  cases t.amount with
  | error e => rfl
  | ok a => exact ite_singleton_eq_filter Iff.rfl

/-- The retained token rows are the candidates passing the threshold. -/
theorem processTokenTransfer_eq_filter (addr : String) (th p : ℚ) (ts : Int)
    (d : String) (sig : Option String) (t : RawTokenTransfer) :
    processTokenTransfer addr th p ts d sig t
      = (tokenCandidate addr p ts d sig t).filter
          (fun w => decide (th ≤ w.usd_value)) := by
  unfold processTokenTransfer tokenCandidate
  cases t.tokenAmount with
  | error e => rfl
  | ok a => exact ite_singleton_eq_filter Iff.rfl

/-- The retained rows of one transaction are the candidates passing the
threshold. -/
theorem processTransaction_eq_filter (addr : String) (th : ℚ)
    (df : PriceDf) (tx : RawTransaction) :
    processTransaction addr th df tx
      = (txCandidates addr df tx).filter
          (fun w => decide (th ≤ w.usd_value)) := by
  unfold processTransaction txCandidates
  cases tx.timestamp with
  | error e => rfl
  | ok ts =>
    by_cases hp : get_token_price_usd (utcDateString ts) df = 0
    · simp [hp]
    · simp only [hp, if_false, List.filter_append, List.filter_flatMap]
      congr 1
      · exact congrArg _ (funext fun t =>
          processNativeTransfer_eq_filter addr th _ ts _ tx.signature t)
      · exact congrArg _ (funext fun t =>
          processTokenTransfer_eq_filter addr th _ ts _ tx.signature t)

/-- Claim C7: the whale threshold comparison is inclusive — the collected
output is exactly the successfully valued transfers with
`usd_value >= threshold`, and in particular a transfer whose value equals
the threshold is retained. -/
theorem C7_theorem (http : String → HttpResp) (th : ℚ) (df : PriceDf)
    (addrs : List String) :
    collectWhaleTxs http th df addrs
      = (collectCandidates http df addrs).filter
          (fun w => decide (th ≤ w.usd_value))
    ∧ ∀ w ∈ collectCandidates http df addrs, w.usd_value = th →
        w ∈ collectWhaleTxs http th df addrs := by
  have hmain : collectWhaleTxs http th df addrs
      = (collectCandidates http df addrs).filter
          (fun w => decide (th ≤ w.usd_value)) := by
    unfold collectWhaleTxs collectCandidates
    rw [List.filter_flatMap]
    refine congrArg _ (funext fun a => ?_)
    unfold processAddress
    cases fetch_transactions_for_wallet http a with
    | error e => rfl
    | ok txs =>
      show txs.flatMap (processTransaction a th df) = _
      rw [List.filter_flatMap]
      exact congrArg _ (funext fun tx => processTransaction_eq_filter a th df tx)
  refine ⟨hmain, fun w hw heq => ?_⟩
  rw [hmain]
  exact List.mem_filter.mpr ⟨hw, by simp [heq]⟩

/-- Claim C7 witness: a token transfer valued exactly at the 100
threshold is a candidate and is retained in the output. -/
theorem C7_witness :
    ({ wallet := "A", type := .TOKEN, amount := 100, usd_value := 100,
       fromAcct := none, toAcct := none, timestamp := 0,
       date := "1970-01-01", signature := some "s", token_address := "MX",
       token_symbol := some "TOKEN-MX..." } : WhaleTx)
      ∈ collectCandidates
          (fun _ => ⟨200, .ok [⟨.ok 0, some "s", [],
            [⟨"MX", .ok 100, none, none⟩]⟩]⟩) [⟨"1970-01-01", 1⟩] ["A"]
    ∧ ({ wallet := "A", type := .TOKEN, amount := 100, usd_value := 100,
         fromAcct := none, toAcct := none, timestamp := 0,
         date := "1970-01-01", signature := some "s", token_address := "MX",
         token_symbol := some "TOKEN-MX..." } : WhaleTx).usd_value = 100
    ∧ ({ wallet := "A", type := .TOKEN, amount := 100, usd_value := 100,
         fromAcct := none, toAcct := none, timestamp := 0,
         date := "1970-01-01", signature := some "s", token_address := "MX",
         token_symbol := some "TOKEN-MX..." } : WhaleTx)
      ∈ collectWhaleTxs
          (fun _ => ⟨200, .ok [⟨.ok 0, some "s", [],
            [⟨"MX", .ok 100, none, none⟩]⟩]⟩) 100 [⟨"1970-01-01", 1⟩]
          ["A"] :=
  ⟨by decide, by decide,
    (C7_theorem (fun _ => ⟨200, .ok [⟨.ok 0, some "s", [],
        [⟨"MX", .ok 100, none, none⟩]⟩]⟩) 100 [⟨"1970-01-01", 1⟩] ["A"]).2
      _ (by decide) (by decide)⟩

/-! ## Claim C3

The pandas indexer model is settled in two regimes.  Below numpy's
16-element cutoff the kernel is the insertion sort, which is stable; the
double reversal in pandas' `nargsort` then yields a stable descending
sort.  At 17 or more rows the partitioning kernel runs and reorders equal
values (see `C3_counterexample` above the theorem). -/

/-- `lexLt` is transitive. -/
theorem lexLt_trans {v : ℕ → ℚ} {a b c : ℕ} (h1 : lexLt v a b)
    (h2 : lexLt v b c) : lexLt v a c := by
  rcases h1 with h1 | ⟨e1, l1⟩
  · rcases h2 with h2 | ⟨e2, l2⟩
    · exact Or.inl (h1.trans h2)
    · exact Or.inl (by rw [← e2]; exact h1)
  · rcases h2 with h2 | ⟨e2, l2⟩
    · exact Or.inl (by rw [e1]; exact h2)
    · exact Or.inr ⟨e1.trans e2, l1.trans l2⟩

/-- Inserting a position into the run only adds that position. -/
theorem insStep_perm (v : ℕ → ℚ) (i : ℕ) :
    ∀ M : List ℕ, (insStep v i M).Perm (i :: M)
  | [] => by simp [insStep]
  | j :: rest => by
    unfold insStep
    by_cases h : v i < v j
    · rw [if_pos h]
      exact ((insStep_perm v i rest).cons j).trans (List.Perm.swap i j rest)
    · rw [if_neg h]

/-- Inserting a fresh, larger position keeps the reversed run ordered:
the run is carried reversed, so earlier entries are lexicographically
greater. -/
theorem insStep_pairwise {v : ℕ → ℚ} {i : ℕ} :
    ∀ {M : List ℕ}, M.Pairwise (fun a b => lexLt v b a) →
      (∀ x ∈ M, x < i) →
      (insStep v i M).Pairwise (fun a b => lexLt v b a) := by
  intro M
  induction M with
  | nil => intro _ _; simp [insStep]
  | cons j rest ih =>
    intro hpw hmem
    rcases List.pairwise_cons.mp hpw with ⟨hj, hrest⟩
    unfold insStep
    by_cases h : v i < v j
    · rw [if_pos h]
      refine List.pairwise_cons.mpr
        ⟨?_, ih hrest (fun x hx => hmem x (List.mem_cons_of_mem j hx))⟩
      intro x hx
      rcases List.mem_cons.mp ((insStep_perm v i rest).mem_iff.mp hx) with
        rfl | hx'
      · exact Or.inl h
      · exact hj x hx'
    · rw [if_neg h]
      have hji : lexLt v j i := by
        rcases lt_or_eq_of_le (not_lt.mp h) with hlt | heq
        · exact Or.inl hlt
        · exact Or.inr ⟨heq, hmem j (List.mem_cons_self j rest)⟩
      refine List.pairwise_cons.mpr ⟨?_, hpw⟩
      intro x hx
      rcases List.mem_cons.mp hx with rfl | hx'
      · exact hji
      · exact lexLt_trans (hj x hx') hji

/-- The insertion-sort fold is a permutation. -/
theorem foldl_insStep_perm (v : ℕ → ℚ) :
    ∀ (l M : List ℕ),
      (l.foldl (fun acc i => insStep v i acc) M).Perm (l ++ M)
  | [], M => by simp
  | i :: l', M => by
    simp only [List.foldl_cons]
    exact (foldl_insStep_perm v l' (insStep v i M)).trans
      (((insStep_perm v i M).append_left l').trans List.perm_middle)

/-- The insertion-sort fold of strictly increasing fresh positions keeps
the reversed run ordered. -/
theorem foldl_insStep_pairwise {v : ℕ → ℚ} :
    ∀ {l M : List ℕ}, l.Pairwise (· < ·) →
      M.Pairwise (fun a b => lexLt v b a) →
      (∀ x ∈ M, ∀ i ∈ l, x < i) →
      (l.foldl (fun acc i => insStep v i acc) M).Pairwise
        (fun a b => lexLt v b a)
  | [], _, _, hM, _ => by simpa using hM
  | i :: l', M, hl, hM, hcross => by
    simp only [List.foldl_cons]
    rcases List.pairwise_cons.mp hl with ⟨hi, hl'⟩
    refine foldl_insStep_pairwise hl' ?_ ?_
    · exact insStep_pairwise hM
        (fun x hx => hcross x hx i (List.mem_cons_self i l'))
    · intro x hx j hj
      rcases List.mem_cons.mp ((insStep_perm v i M).mem_iff.mp hx) with
        rfl | hx'
      · exact hi j hj
      · exact hcross x hx' j (List.mem_cons_of_mem i hj)

/-- The small-segment insertion sort permutes its input. -/
theorem insRun_perm (v : ℕ → ℚ) (l : List ℕ) : (insRun v l).Perm l := by
  unfold insRun
  exact (List.reverse_perm _).trans
    ((foldl_insStep_perm v l []).trans (by simp))

/-- On strictly increasing positions the small-segment insertion sort
produces the `lexLt`-ascending order (value-ascending, ties by
position — stability). -/
theorem insRun_pairwise {v : ℕ → ℚ} {l : List ℕ}
    (hl : l.Pairwise (· < ·)) : (insRun v l).Pairwise (lexLt v) := by
  unfold insRun
  rw [List.pairwise_reverse]
  exact foldl_insStep_pairwise hl List.Pairwise.nil
    (fun x hx => absurd hx (List.not_mem_nil x))

/-- A small segment with an empty stack is handled entirely by the
insertion branch of the kernel's main loop. -/
theorem aquicksortMain_small {v : ℕ → ℚ} {fuel pl pr : ℕ} {depth : Int}
    {ts : List ℕ} (h : pr - pl ≤ SMALL_QUICKSORT) :
    aquicksortMain v (fuel + 1) ts [] pl pr depth
      = ts.take pl ++ insRun v ((ts.drop pl).take (pr + 1 - pl))
          ++ ts.drop (pr + 1) := by
  simp only [aquicksortMain]
  rw [if_neg (not_lt.mpr h)]

/-- Up to 16 positions (`n - 1 ≤ SMALL_QUICKSORT`), the numpy argsort
kernel is exactly the stable insertion argsort of `0..n-1`. -/
theorem npy_aquicksort_small {v : ℕ → ℚ} {n : ℕ} (h : n ≤ 16) :
    npy_aquicksort v n = insRun v (List.range n) := by
  cases n with
  | zero => rfl
  | succ m =>
    have hsm : m + 1 - 1 - 0 ≤ SMALL_QUICKSORT := by
      simp only [SMALL_QUICKSORT]
      omega
    unfold npy_aquicksort
    rw [show 2 * (m + 1) + 2 = (2 * (m + 1) + 1) + 1 from rfl,
      aquicksortMain_small hsm]
    have h1 : m + 1 - 1 + 1 - 0 = m + 1 := by omega
    have h2 : m + 1 - 1 + 1 = m + 1 := by omega
    rw [List.drop_zero, List.take_zero, h1, h2,
      List.take_of_length_le (by rw [List.length_range]),
      List.drop_eq_nil_of_le (by rw [List.length_range]),
      List.nil_append, List.append_nil]

/-- Below the cutoff, the pandas descending indexer is a permutation of
the row positions and is pairwise ordered by the stable descending
relation: larger value first, equal values in discovery order. -/
theorem nargsortDesc_small {vals : List ℚ} (h : vals.length ≤ 16) :
    (nargsortDesc vals).Perm (List.range vals.length)
    ∧ (nargsortDesc vals).Pairwise (stableDescRel vals) := by
  have hdef : nargsortDesc vals
      = ((npy_aquicksort (fun i => vals.reverse.getD i 0)
          vals.length).map (fun t => vals.length - 1 - t)).reverse := rfl
  have hq := npy_aquicksort_small
    (v := fun i => vals.reverse.getD i 0) (n := vals.length) h
  rw [hdef, hq]
  have hRperm : (insRun (fun i => vals.reverse.getD i 0)
      (List.range vals.length)).Perm (List.range vals.length) :=
    insRun_perm _ _
  have hRpw : (insRun (fun i => vals.reverse.getD i 0)
      (List.range vals.length)).Pairwise
        (lexLt (fun i => vals.reverse.getD i 0)) :=
    insRun_pairwise (List.pairwise_lt_range vals.length)
  have hmemR : ∀ t ∈ insRun (fun i => vals.reverse.getD i 0)
      (List.range vals.length), t < vals.length := by
    intro t ht
    exact List.mem_range.mp (hRperm.mem_iff.mp ht)
  have hv : ∀ t, t < vals.length →
      vals.reverse.getD t 0 = vals.getD (vals.length - 1 - t) 0 := by
    intro t ht
    have h1 : t < vals.reverse.length := by rwa [List.length_reverse]
    have h2 : vals.length - 1 - t < vals.length := by omega
    rw [List.getD_eq_getElem _ _ h1, List.getD_eq_getElem _ _ h2]
    simp [List.getElem_reverse]
  constructor
  · refine (List.reverse_perm _).trans ((hRperm.map _).trans ?_)
    have hmapi : (List.range vals.length).map
        (fun t => vals.length - 1 - t) = (List.range vals.length).reverse := by
      apply List.ext_getElem
      · simp
      · intro i h1 h2
        simp [List.getElem_reverse]
    rw [hmapi]
    exact List.reverse_perm _
  · rw [List.pairwise_reverse, List.pairwise_map]
    refine hRpw.imp_of_mem ?_
    intro a b ha hb hab
    have han : a < vals.length := hmemR a ha
    have hbn : b < vals.length := hmemR b hb
    rcases hab with hlt | ⟨heq, hab⟩
    · refine Or.inl ?_
      rw [← hv a han, ← hv b hbn]
      exact hlt
    · refine Or.inr ⟨?_, by omega⟩
      rw [← hv a han, ← hv b hbn]
      exact heq.symm

/-- Claim C3 counterexample: seventeen equal-valued (100 USD) transfers,
discovered in mint order M00..M16, come out of the sort in the order
M00, M09, M15, M14, ... — pandas' default `kind='quicksort'` crosses
numpy's 16-element insertion-sort cutoff and reorders the ties, so the
sort is not stable and ties do not keep discovery order. -/
theorem C3_counterexample :
    (collectWhaleTxs c3Http 100 [⟨"1970-01-01", 1⟩] ["A"]).map
        (fun w => w.token_address) = c3Mints
    ∧ (collectWhaleTxs c3Http 100 [⟨"1970-01-01", 1⟩] ["A"]).map
        (fun w => w.usd_value) = List.replicate 17 100
    ∧ fetch_whale_transactions (.ok "k") (.ok ()) (some [some "A"]) c3Http
        100 [⟨"1970-01-01", 1⟩]
      = .ok (sort_values_usd_desc
          (collectWhaleTxs c3Http 100 [⟨"1970-01-01", 1⟩] ["A"]))
    ∧ (sort_values_usd_desc
        (collectWhaleTxs c3Http 100 [⟨"1970-01-01", 1⟩] ["A"])).map
          (fun w => w.token_address)
      = ["M00", "M09", "M15", "M14", "M13", "M12", "M11", "M10", "M08",
         "M01", "M07", "M06", "M05", "M04", "M03", "M02", "M16"]
    ∧ ["M00", "M09", "M15", "M14", "M13", "M12", "M11", "M10", "M08",
       "M01", "M07", "M06", "M05", "M04", "M03", "M02", "M16"] ≠ c3Mints :=
  ⟨by decide, by decide, by decide, by decide, by decide⟩

/-- Claim C3 (amended): for at most 16 collected transfers — the numpy
small-sort regime, which covers the spec's worked example — the output is
a permutation of the collected rows, sorted by `usd_value` descending,
with the pandas indexer stable-descending (equal values keep discovery
order); the example run over addresses [A, B] yielding 300, 150 and 500
returns [500, 300, 150].  With 17 or more collected transfers the default
quicksort kernel partitions and equal values may be reordered
(`C3_counterexample`), so the unrestricted stability reading is false. -/
theorem C3_theorem (rows : List WhaleTx) (h : rows.length ≤ 16) :
    (sort_values_usd_desc rows).Perm rows
    ∧ (sort_values_usd_desc rows).Pairwise
        (fun a b => b.usd_value ≤ a.usd_value)
    ∧ (nargsortDesc (rows.map (fun w => w.usd_value))).Pairwise
        (stableDescRel (rows.map (fun w => w.usd_value)))
    ∧ Except.map (List.map (fun w => WhaleTx.usd_value w))
        (fetch_whale_transactions (.ok "k") (.ok ())
          (some [some "A", some "B"]) c3ExHttp 100 [⟨"1970-01-01", 1⟩])
      = .ok [500, 300, 150] := by
  have hlen : (rows.map (fun w => w.usd_value)).length ≤ 16 := by
    rwa [List.length_map]
  obtain ⟨hperm, hpw⟩ := nargsortDesc_small hlen
  rw [List.length_map] at hperm
  have hmem : ∀ i ∈ nargsortDesc (rows.map (fun w => w.usd_value)),
      i < rows.length := by
    intro i hi
    exact List.mem_range.mp (hperm.mem_iff.mp hi)
  have hgetD : ∀ i,
      (rows.map (fun w => w.usd_value)).getD i 0
        = (rows.getD i dummyTx).usd_value := by
    intro i
    have h0 : (0 : ℚ) = dummyTx.usd_value := rfl
    rw [h0]
    exact List.getD_map rows dummyTx (fun w => w.usd_value)
  refine ⟨?_, ?_, hpw, by decide⟩
  · unfold sort_values_usd_desc
    have hmr : (List.range rows.length).map
        (fun i => rows.getD i dummyTx) = rows := by
      apply List.ext_getElem
      · simp
      · intro i h1 h2
        simp [List.getD_eq_getElem _ _ h2, List.getElem?_eq_getElem h2]
    refine (hperm.map _).trans ?_
    rw [hmr]
  · unfold sort_values_usd_desc
    rw [List.pairwise_map]
    refine hpw.imp_of_mem ?_
    intro i j hi hj hij
    rcases hij with hlt | ⟨heq, _⟩
    · rw [hgetD i, hgetD j] at hlt
      exact le_of_lt hlt
    · rw [hgetD i, hgetD j] at heq
      exact le_of_eq heq.symm

/-- Claim C3 (amended) witness: three rows with a tie at 100 — the sorted
output is a permutation, descending, and the tie keeps discovery order. -/
theorem C3_witness :
    (([{ dummyTx with token_address := "R1", usd_value := 100 },
       { dummyTx with token_address := "R2", usd_value := 100 },
       { dummyTx with token_address := "R3", usd_value := 200 }]
        : List WhaleTx).length ≤ 16)
    ∧ ((sort_values_usd_desc
        [{ dummyTx with token_address := "R1", usd_value := 100 },
         { dummyTx with token_address := "R2", usd_value := 100 },
         { dummyTx with token_address := "R3", usd_value := 200 }]).Perm
          [{ dummyTx with token_address := "R1", usd_value := 100 },
           { dummyTx with token_address := "R2", usd_value := 100 },
           { dummyTx with token_address := "R3", usd_value := 200 }]
      ∧ (sort_values_usd_desc
          [{ dummyTx with token_address := "R1", usd_value := 100 },
           { dummyTx with token_address := "R2", usd_value := 100 },
           { dummyTx with token_address := "R3", usd_value := 200 }]).Pairwise
            (fun a b => b.usd_value ≤ a.usd_value)
      ∧ (nargsortDesc
          ([{ dummyTx with token_address := "R1", usd_value := 100 },
            { dummyTx with token_address := "R2", usd_value := 100 },
            { dummyTx with token_address := "R3", usd_value := 200 }].map
              (fun w => w.usd_value))).Pairwise
            (stableDescRel
              ([{ dummyTx with token_address := "R1", usd_value := 100 },
                { dummyTx with token_address := "R2", usd_value := 100 },
                { dummyTx with token_address := "R3", usd_value := 200 }].map
                  (fun w => w.usd_value)))
      ∧ Except.map (List.map (fun w => WhaleTx.usd_value w))
          (fetch_whale_transactions (.ok "k") (.ok ())
            (some [some "A", some "B"]) c3ExHttp 100 [⟨"1970-01-01", 1⟩])
        = .ok [500, 300, 150]) :=
  ⟨by decide,
    C3_theorem
      [{ dummyTx with token_address := "R1", usd_value := 100 },
       { dummyTx with token_address := "R2", usd_value := 100 },
       { dummyTx with token_address := "R3", usd_value := 200 }]
      (by decide)⟩

end WhaleMovement
